import Mathlib

/-!
Verification development for the chat-p2p repository.

The file shallowly embeds the parts of the code that the checked claims
are about:

* `PeerVerificationManager` (peer verification state machine, with its
  session map, public-key map and one-shot timers),
* `ActionManager.makeAction` (memoized channel creation),
* `EventManager` (peer-lifecycle hook registration and fan-out),
* `StreamManager` (FIFO stream-attach queue with quiescence delays),
* `ConnectionManager.getPeerConnectionTypes` (DIRECT/RELAY classification).

JavaScript `Map` objects owned by a manager instance are embedded as
functions `String → Option β` (get / set / delete are function lookup and
pointwise update).  One-shot `setTimeout` timers are embedded by an
allocation counter plus the list of still-armed timers: `setTimeout`
arms a fresh timer id, `clearTimeout` removes it, and the runtime may
fire a timer only while it is still armed (and firing disarms it).
External collaborators (crypto, transport, `Date.now`, random tokens)
are passed in as parameters, exactly where the code awaits or reads them.
-/

namespace ChatP2P

/-- Pointwise update of an embedded JavaScript Map: `map.set k v`. -/
def mapSet {β : Type} (m : String → Option β) (k : String) (v : β) : String → Option β :=
  fun q => if q = k then some v else m q

/-- Pointwise deletion in an embedded JavaScript Map: `map.delete k`. -/
def mapDel {β : Type} (m : String → Option β) (k : String) : String → Option β :=
  fun q => if q = k then none else m q

theorem mapSet_same {β : Type} (m : String → Option β) (k : String) (v : β) :
    mapSet m k v k = some v := by
  simp [mapSet]

theorem mapSet_other {β : Type} (m : String → Option β) (k q : String) (v : β)
    (h : q ≠ k) : mapSet m k v q = m q := by
  simp [mapSet, h]

theorem mapDel_same {β : Type} (m : String → Option β) (k : String) :
    mapDel m k k = none := by
  simp [mapDel]

theorem mapDel_other {β : Type} (m : String → Option β) (k q : String)
    (h : q ≠ k) : mapDel m k q = m q := by
  simp [mapDel, h]

/-- The armed one-shot timers of a manager: (timer id, captured peerId). -/
abbrev TimerList : Type := List (Nat × String)

/-- `clearTimeout tid`: the timer is no longer armed. -/
def clearTimer (tid : Nat) : TimerList → TimerList
  | [] => []
  | p :: rest =>
      if p.1 = tid then clearTimer tid rest else p :: clearTimer tid rest

/-- Look up an armed timer by id, returning the peerId its callback captured. -/
def findTimer (tid : Nat) : TimerList → Option String
  | [] => none
  | p :: rest => if p.1 = tid then some p.2 else findTimer tid rest

theorem findTimer_clearTimer (tid : Nat) (l : TimerList) :
    findTimer tid (clearTimer tid l) = none := by
  induction l with
  | nil => rfl
  | cons p rest ih =>
      by_cases h : p.1 = tid
      · simp [clearTimer, findTimer, h, ih]
      · simp [clearTimer, findTimer, h, ih]

theorem not_mem_clearTimer (tid : Nat) (q : String) (l : TimerList) :
    (tid, q) ∉ clearTimer tid l := by
  induction l with
  | nil => simp [clearTimer]
  | cons p rest ih =>
      by_cases h : p.1 = tid
      · simpa [clearTimer, h] using ih
      · simp [clearTimer, h, ih]
        intro hc
        exact absurd ((congrArg Prod.fst hc).symm) h

end ChatP2P

namespace ChatP2P.PeerVerification

/-- Verification states of a peer session (enum `PeerVerificationState`). -/
inductive PeerVerificationState where
  | VERIFYING
  | VERIFIED
  | UNVERIFIED
  deriving DecidableEq, Repr

/-- Wire payload of a verification request (interface `VerificationTokenEncrypted`). -/
structure VerificationTokenEncrypted where
  requestId : String
  encryptedToken : String
  timestamp : Nat
  deriving DecidableEq, Repr

/-- Wire payload of a verification response (interface `VerificationTokenRaw`). -/
structure VerificationTokenRaw where
  requestId : String
  decryptedToken : String
  timestamp : Nat
  deriving DecidableEq, Repr

/-- Session record (interface `PeerVerificationMetadata`).  The
`timeoutTimer` handle is the id of the one-shot timer armed for this
session. -/
structure PeerVerificationMetadata where
  peerId : String
  state : PeerVerificationState
  localToken : String
  remoteToken : Option String
  encryptedLocalToken : Option String
  requestId : String
  timestamp : Nat
  timeoutTimer : Option Nat
  deriving DecidableEq, Repr

/-- State owned by a `PeerVerificationManager` instance: the
`verificationMap` and `publicKeyMap` maps, plus the timers it has armed
(`activeTimers`) and the allocator for fresh timer ids (`nextTimerId`).
`CryptoKey` values are opaque to the manager and embedded as `Nat`. -/
structure VerifState where
  verificationMap : String → Option PeerVerificationMetadata
  publicKeyMap : String → Option Nat
  activeTimers : TimerList
  nextTimerId : Nat

/-- A fresh manager: both maps empty, no timer armed. -/
def initialState : VerifState :=
  { verificationMap := fun _ => none
    publicKeyMap := fun _ => none
    activeTimers := []
    nextTimerId := 0 }

/-- `registerPublicKey`. -/
def registerPublicKey (s : VerifState) (peerId : String) (publicKey : Nat) : VerifState :=
  { s with publicKeyMap := mapSet s.publicKeyMap peerId publicKey }

/-- `setVerificationState`: update the state field of the session for
`peerId` if one exists; a no-op when no session entry exists. -/
def setVerificationState (s : VerifState) (peerId : String)
    (state : PeerVerificationState) : VerifState :=
  match s.verificationMap peerId with
  | none => s
  | some metadata =>
      { s with verificationMap :=
          mapSet s.verificationMap peerId { metadata with state := state } }

/-- `initiateVerification`.  The randomly generated `localToken` and
`requestId`, the ciphertext produced by the external crypto collaborator
(`encryptedTokenBase64`) and the current time `now` are parameters.  The
operation stores a fresh `VERIFYING` session (replacing any previous
session for the peer, without touching the previous session's timer),
arms a fresh one-shot timer whose callback captured `peerId`, registers
the public key, and returns the request payload sent to the peer. -/
def initiateVerification (s : VerifState) (peerId : String) (publicKey : Nat)
    (localToken requestId encryptedTokenBase64 : String) (now : Nat) :
    VerifState × VerificationTokenEncrypted :=
  let tid := s.nextTimerId
  let metadata : PeerVerificationMetadata :=
    { peerId := peerId
      state := PeerVerificationState.VERIFYING
      localToken := localToken
      remoteToken := none
      encryptedLocalToken := some encryptedTokenBase64
      requestId := requestId
      timestamp := now
      timeoutTimer := some tid }
  ({ verificationMap := mapSet s.verificationMap peerId metadata
     publicKeyMap := mapSet s.publicKeyMap peerId publicKey
     activeTimers := s.activeTimers ++ [(tid, peerId)]
     nextTimerId := tid + 1 },
   { requestId := requestId
     encryptedToken := encryptedTokenBase64
     timestamp := now })

/-- `handleEncryptedTokenReceived` (the responder role).  `decryptResult`
is the outcome of fetching the local private key and decrypting the
token with the external crypto collaborator: `some t` on success, `none`
when that try-block threw.  Returns the new manager state and the
response payload sent back, if any. -/
def handleEncryptedTokenReceived (s : VerifState) (data : VerificationTokenEncrypted)
    (peerId : String) (decryptResult : Option String) (now : Nat) :
    VerifState × Option VerificationTokenRaw :=
  match decryptResult with
  | some decryptedToken =>
      (s, some { requestId := data.requestId
                 decryptedToken := decryptedToken
                 timestamp := now })
  | none =>
      (setVerificationState s peerId PeerVerificationState.UNVERIFIED, none)

/-- `handleRawTokenReceived` (the asker receiving a response). -/
def handleRawTokenReceived (s : VerifState) (data : VerificationTokenRaw)
    (peerId : String) : VerifState :=
  match s.verificationMap peerId with
  | none => s
  | some metadata =>
      if metadata.requestId ≠ data.requestId then
        setVerificationState s peerId PeerVerificationState.UNVERIFIED
      else
        let s1 : VerifState :=
          match metadata.timeoutTimer with
          | some tid => { s with activeTimers := clearTimer tid s.activeTimers }
          | none => s
        if data.decryptedToken = metadata.localToken then
          let metadata1 := { metadata with remoteToken := some data.decryptedToken }
          setVerificationState
            ({ s1 with verificationMap := mapSet s1.verificationMap peerId metadata1 })
            peerId PeerVerificationState.VERIFIED
        else
          setVerificationState s1 peerId PeerVerificationState.UNVERIFIED

/-- `handleVerificationTimeout`: the timer callback body. -/
def handleVerificationTimeout (s : VerifState) (peerId : String) : VerifState :=
  setVerificationState s peerId PeerVerificationState.UNVERIFIED

/-- The runtime fires armed one-shot timer `tid`: if it is still armed,
it is disarmed and its callback `handleVerificationTimeout` runs on the
peerId the callback captured; a cleared or already-fired timer does
nothing. -/
def fireTimer (s : VerifState) (tid : Nat) : VerifState :=
  match findTimer tid s.activeTimers with
  | none => s
  | some peerId =>
      handleVerificationTimeout
        ({ s with activeTimers := clearTimer tid s.activeTimers }) peerId

/-- `getVerificationState`. -/
def getVerificationState (s : VerifState) (peerId : String) : PeerVerificationState :=
  match s.verificationMap peerId with
  | some metadata => metadata.state
  | none => PeerVerificationState.UNVERIFIED

/-- `isVerified`. -/
def isVerified (s : VerifState) (peerId : String) : Bool :=
  getVerificationState s peerId = PeerVerificationState.VERIFIED

/-- `removePeer`: clear the current session's pending timer, delete the
session and the registered public key. -/
def removePeer (s : VerifState) (peerId : String) : VerifState :=
  let s1 : VerifState :=
    match s.verificationMap peerId with
    | some metadata =>
        match metadata.timeoutTimer with
        | some tid => { s with activeTimers := clearTimer tid s.activeTimers }
        | none => s
    | none => s
  { s1 with
    verificationMap := mapDel s1.verificationMap peerId
    publicKeyMap := mapDel s1.publicKeyMap peerId }

end ChatP2P.PeerVerification

namespace ChatP2P.Actions

/-- State owned by an `ActionManager` instance.  The `actions` map sends
a channel key ("namespace.action") to the memoized action tuple.  Tuples
returned by the underlying `room.makeAction` are opaque to the manager;
they are embedded by the id under which the room allocated them, with
`nextTupleId` the allocator: each `room.makeAction` call yields a fresh,
distinct tuple. -/
structure ActionManagerState where
  actions : String → Option Nat
  nextTupleId : Nat

/-- A fresh `ActionManager`: empty memo table. -/
def initialState : ActionManagerState :=
  { actions := fun _ => none, nextTupleId := 0 }

/-- The channel key built by `makeAction`: `namespace ++ "." ++ action`. -/
def actionName (action ns : String) : String :=
  ns ++ "." ++ action

/-- `makeAction`: return the cached tuple for the key if present,
otherwise create a fresh tuple via the room and memoize it.  Returns the
tuple (by its id) and the new manager state. -/
def makeAction (s : ActionManagerState) (action ns : String) :
    Nat × ActionManagerState :=
  let name := actionName action ns
  match s.actions name with
  | some tuple => (tuple, s)
  | none =>
      (s.nextTupleId,
       { actions := mapSet s.actions name s.nextTupleId
         nextTupleId := s.nextTupleId + 1 })

/-- The `cleanup` closure stored in the tuple for key
"namespace.action": it deletes that key from the memo table. -/
def tupleCleanup (s : ActionManagerState) (action ns : String) : ActionManagerState :=
  { s with actions := mapDel s.actions (actionName action ns) }

/-- Well-formedness of the allocator: every memoized tuple id was
allocated before `nextTupleId`. -/
def WF (s : ActionManagerState) : Prop :=
  ∀ k t, s.actions k = some t → t < s.nextTupleId

theorem wf_initialState : WF initialState := by
  intro k t h
  exact absurd h (by simp [initialState])

theorem wf_makeAction (s : ActionManagerState) (action ns : String) (hwf : WF s) :
    WF (makeAction s action ns).2 := by
  unfold makeAction
  cases hcase : s.actions (actionName action ns) with
  | some tuple => simpa [hcase] using hwf
  | none =>
      simp only [hcase]
      intro k t h
      change mapSet s.actions (actionName action ns) s.nextTupleId k = some t at h
      change t < s.nextTupleId + 1
      by_cases hk : k = actionName action ns
      · rw [hk, mapSet_same] at h
        simp at h
        omega
      · rw [mapSet_other _ _ _ _ hk] at h
        exact Nat.lt_succ_of_lt (hwf k t h)

end ChatP2P.Actions

namespace ChatP2P.Events

/-- Hook categories (enum `PeerHookType`). -/
inductive PeerHookType where
  | NEW_PEER
  | STREAM
  | FILE_SHARE
  deriving DecidableEq, Repr

/-- State owned by an `EventManager` instance.  Each of the three
`Map<PeerHookType, Set<Handler>>` members is embedded as a function from
hook category to the list of registered handlers for that category (an
absent key and an empty set are observationally the same for delivery
and removal).  Handlers are opaque callbacks, embedded by id. -/
structure EventManagerState where
  peerJoinHandlers : PeerHookType → List Nat
  peerLeaveHandlers : PeerHookType → List Nat
  peerStreamHandlers : PeerHookType → List Nat

/-- A fresh `EventManager`: no handlers. -/
def initialState : EventManagerState :=
  { peerJoinHandlers := fun _ => []
    peerLeaveHandlers := fun _ => []
    peerStreamHandlers := fun _ => [] }

/-- Add a handler to one category of one handler map (`Set.add`). -/
def addHandler (m : PeerHookType → List Nat) (hookType : PeerHookType) (h : Nat) :
    PeerHookType → List Nat :=
  fun c => if c = hookType then (if h ∈ m hookType then m hookType else m hookType ++ [h]) else m c

/-- `onPeerJoin`. -/
def onPeerJoin (s : EventManagerState) (hookType : PeerHookType) (h : Nat) :
    EventManagerState :=
  { s with peerJoinHandlers := addHandler s.peerJoinHandlers hookType h }

/-- `onPeerLeave`. -/
def onPeerLeave (s : EventManagerState) (hookType : PeerHookType) (h : Nat) :
    EventManagerState :=
  { s with peerLeaveHandlers := addHandler s.peerLeaveHandlers hookType h }

/-- `onPeerStream`. -/
def onPeerStream (s : EventManagerState) (hookType : PeerHookType) (h : Nat) :
    EventManagerState :=
  { s with peerStreamHandlers := addHandler s.peerStreamHandlers hookType h }

/-- The handlers a trigger invokes: `forEach` over every category of the
map, invoking every handler in each category's set.  The three
categories are enumerated in declaration order. -/
def invokedHandlers (m : PeerHookType → List Nat) : List Nat :=
  m PeerHookType.NEW_PEER ++ m PeerHookType.STREAM ++ m PeerHookType.FILE_SHARE

/-- `triggerPeerJoin`: the list of join handlers invoked, across all
categories. -/
def triggerPeerJoin (s : EventManagerState) : List Nat :=
  invokedHandlers s.peerJoinHandlers

/-- `triggerPeerLeave`. -/
def triggerPeerLeave (s : EventManagerState) : List Nat :=
  invokedHandlers s.peerLeaveHandlers

/-- `triggerPeerStream`. -/
def triggerPeerStream (s : EventManagerState) : List Nat :=
  invokedHandlers s.peerStreamHandlers

/-- `flushHookType`: delete one category from all three handler maps. -/
def flushHookType (s : EventManagerState) (hookType : PeerHookType) : EventManagerState :=
  { peerJoinHandlers := fun c => if c = hookType then [] else s.peerJoinHandlers c
    peerLeaveHandlers := fun c => if c = hookType then [] else s.peerLeaveHandlers c
    peerStreamHandlers := fun c => if c = hookType then [] else s.peerStreamHandlers c }

theorem mem_invokedHandlers (m : PeerHookType → List Nat) (h : Nat) :
    h ∈ invokedHandlers m ↔ ∃ c, h ∈ m c := by
  constructor
  · intro hmem
    simp only [invokedHandlers, List.mem_append] at hmem
    rcases hmem with (hc | hc) | hc
    · exact ⟨PeerHookType.NEW_PEER, hc⟩
    · exact ⟨PeerHookType.STREAM, hc⟩
    · exact ⟨PeerHookType.FILE_SHARE, hc⟩
  · rintro ⟨c, hc⟩
    simp only [invokedHandlers, List.mem_append]
    cases c with
    | NEW_PEER => exact Or.inl (Or.inl hc)
    | STREAM => exact Or.inl (Or.inr hc)
    | FILE_SHARE => exact Or.inr hc

end ChatP2P.Events

namespace ChatP2P.Streams

/-- A queued unit of work in the `StreamManager` queue.  `addStream`
enqueues an `attach` closure (running the transport attach for the
stream, target peers and metadata) followed by a `delay` closure
(`sleep STREAM_QUEUE_ADD_DELAY`).  Streams, peer lists and metadata are
opaque to the queue and embedded by id. -/
inductive StreamTask where
  | attach (stream : Nat) (targetPeers : Option (List String)) (metadata : Option Nat)
  | delay (ms : Nat)
  deriving DecidableEq, Repr

/-- `STREAM_QUEUE_ADD_DELAY` (milliseconds). -/
def STREAM_QUEUE_ADD_DELAY : Nat := 1000

/-- State owned by a `StreamManager` instance. -/
structure StreamManagerState where
  streamQueue : List StreamTask
  isProcessingPendingStreams : Bool

/-- A fresh `StreamManager`: empty queue, not processing. -/
def initialState : StreamManagerState :=
  { streamQueue := [], isProcessingPendingStreams := false }

/-- `addStream`: push the attach task and the quiescence-delay task onto
the end of the queue (and kick `processPendingStreams`, whose draining
is modelled by `processQueue`). -/
def addStream (s : StreamManagerState) (stream : Nat)
    (targetPeers : Option (List String)) (metadata : Option Nat) : StreamManagerState :=
  { s with streamQueue :=
      s.streamQueue ++ [StreamTask.attach stream targetPeers metadata,
                        StreamTask.delay STREAM_QUEUE_ADD_DELAY] }

/-- The drain loop of `processPendingStreams`: repeatedly shift the
first task off the queue and await it to completion before looking at
the next one — at most one task runs at a time, strictly FIFO.  The
result is the completion order of the tasks. -/
def processQueue : List StreamTask → List StreamTask
  | [] => []
  | t :: rest => t :: processQueue rest

/-- `removeStream` bypasses the queue entirely: it calls the transport
directly and leaves the manager state untouched. -/
def removeStream (s : StreamManagerState) (stream : Nat)
    (targetPeers : Option (List String)) : StreamManagerState :=
  s

end ChatP2P.Streams

namespace ChatP2P.Connection

/-- Connection classification (enum `PeerConnectionType`). -/
inductive PeerConnectionType where
  | DIRECT
  | RELAY
  deriving DecidableEq, Repr

/-- One record of an RTC statistics report: its map key (`id`), its
`type` and `state` fields, the `localCandidateId` it links to (absent or
falsy ⇒ `none`) and, for candidate records, the `candidateType`. -/
structure StatsEntry where
  id : String
  type : String
  state : String
  localCandidateId : Option String
  candidateType : Option String
  deriving DecidableEq, Repr

/-- A statistics report: `values()` iterates the entries in order, and
`get cid` looks an entry up by its id. -/
abbrev StatsReport : Type := List StatsEntry

/-- `stats.get cid`. -/
def statsGet (stats : StatsReport) (cid : String) : Option StatsEntry :=
  stats.find? (fun e => e.id == cid)

/-- The body of the per-peer closure in `getPeerConnectionTypes`: scan
`stats.values()` for the first succeeded candidate pair with a truthy
`localCandidateId` (the loop breaks at the first hit), then classify
RELAY exactly when that local candidate's `candidateType` is "relay". -/
def classifyPeer (stats : StatsReport) : PeerConnectionType :=
  let selectedLocalCandidate : Option String :=
    (stats.find? (fun e =>
      e.type == "candidate-pair" && e.state == "succeeded" && e.localCandidateId.isSome)).bind
      (fun e => e.localCandidateId)
  let isRelay : Bool :=
    match selectedLocalCandidate with
    | none => false
    | some cid =>
        match statsGet stats cid with
        | none => false
        | some entry => entry.candidateType == some "relay"
  if isRelay then PeerConnectionType.RELAY else PeerConnectionType.DIRECT

/-- `getPeerConnectionTypes`: for each connected peer, await
`getStats()` (whose outcome — a report, or a rejection — is the
`Except` value supplied for that peer) and classify it.  The results are
combined with `Promise.all`, which rejects as soon as any single
per-peer promise rejects, so one failed statistics fetch rejects the
whole call and no map is returned. -/
def getPeerConnectionTypes (peers : List (String × Except Unit StatsReport)) :
    Except Unit (List (String × PeerConnectionType)) :=
  peers.mapM (fun p =>
    match p.2 with
    | Except.ok stats => Except.ok (p.1, classifyPeer stats)
    | Except.error e => Except.error e)

end ChatP2P.Connection

namespace ChatP2P.PeerVerification

theorem setVerificationState_activeTimers (s : VerifState) (p : String)
    (st : PeerVerificationState) :
    (setVerificationState s p st).activeTimers = s.activeTimers := by
  unfold setVerificationState
  cases s.verificationMap p <;> rfl

theorem setVerificationState_publicKeyMap (s : VerifState) (p : String)
    (st : PeerVerificationState) :
    (setVerificationState s p st).publicKeyMap = s.publicKeyMap := by
  unfold setVerificationState
  cases s.verificationMap p <;> rfl

theorem setVerificationState_map_self (s : VerifState) (p : String)
    (st : PeerVerificationState) (m : PeerVerificationMetadata)
    (hm : s.verificationMap p = some m) :
    (setVerificationState s p st).verificationMap p = some { m with state := st } := by
  unfold setVerificationState
  rw [hm]
  exact mapSet_same _ _ _

theorem setVerificationState_map_none (s : VerifState) (p q : String)
    (st : PeerVerificationState) (h : s.verificationMap q = none) :
    (setVerificationState s p st).verificationMap q = none := by
  unfold setVerificationState
  cases hm : s.verificationMap p with
  | none => exact h
  | some m =>
      show mapSet s.verificationMap p { m with state := st } q = none
      by_cases hq : q = p
      · rw [hq] at h
        simp [h] at hm
      · rw [mapSet_other _ _ _ _ hq]
        exact h

theorem setVerificationState_map_other (s : VerifState) (p q : String)
    (st : PeerVerificationState) (hq : q ≠ p) :
    (setVerificationState s p st).verificationMap q = s.verificationMap q := by
  unfold setVerificationState
  cases hm : s.verificationMap p with
  | none => rfl
  | some m =>
      show mapSet s.verificationMap p { m with state := st } q = s.verificationMap q
      exact mapSet_other _ _ _ _ hq

theorem getVerificationState_set_self (s : VerifState) (p : String)
    (st : PeerVerificationState) (m : PeerVerificationMetadata)
    (hm : s.verificationMap p = some m) :
    getVerificationState (setVerificationState s p st) p = st := by
  unfold getVerificationState
  rw [setVerificationState_map_self s p st m hm]

theorem fireTimer_not_armed (s : VerifState) (tid : Nat)
    (h : findTimer tid s.activeTimers = none) : fireTimer s tid = s := by
  unfold fireTimer
  rw [h]

theorem fireTimer_armed (s : VerifState) (tid : Nat) (p : String)
    (h : findTimer tid s.activeTimers = some p) :
    fireTimer s tid =
      handleVerificationTimeout
        ({ s with activeTimers := clearTimer tid s.activeTimers }) p := by
  unfold fireTimer
  rw [h]

/-- One-shot timers: a fired timer is disarmed, so firing it again does
nothing. -/
theorem fireTimer_oneShot (s : VerifState) (tid : Nat) :
    fireTimer (fireTimer s tid) tid = fireTimer s tid := by
  cases hf : findTimer tid s.activeTimers with
  | none =>
      rw [fireTimer_not_armed s tid hf, fireTimer_not_armed s tid hf]
  | some p =>
      apply fireTimer_not_armed
      rw [fireTimer_armed s tid p hf]
      unfold handleVerificationTimeout
      rw [setVerificationState_activeTimers]
      exact findTimer_clearTimer tid s.activeTimers

/-- Claim C1: the claim says that when `initiateVerification(P, ...)`
replaces a still-`VERIFYING` session, the superseded session's timer is
invalidated and a late fire of it performs no state transition.  The
embedded code refutes this: `initiateVerification` never clears the
previous session's timer and `handleVerificationTimeout` transitions
unconditionally.  On the failing input below, after two initiations for
"P" the first session's timer (id 0) is still armed, the live session is
the newer one ("r2", `VERIFYING`), and firing the stale timer flips that
newer session to `UNVERIFIED`. -/
theorem C1_superseded_timer_flips_newer_session :
    let s1 : VerifState := (initiateVerification initialState "P" 7 "tok1" "r1" "enc1" 100).1
    let s2 : VerifState := (initiateVerification s1 "P" 7 "tok2" "r2" "enc2" 200).1
    findTimer 0 s2.activeTimers = some "P" ∧
    getVerificationState s2 "P" = PeerVerificationState.VERIFYING ∧
    Option.map PeerVerificationMetadata.requestId (s2.verificationMap "P") = some "r2" ∧
    getVerificationState (fireTimer s2 0) "P" = PeerVerificationState.UNVERIFIED ∧
    Option.map PeerVerificationMetadata.requestId ((fireTimer s2 0).verificationMap "P")
      = some "r2" := by
  decide

/-- Claim C2 counterexample: the claim says that after a session times
out (one transition to `UNVERIFIED`) no later event transitions that
session's state again.  In the embedded code the session entry survives
the timeout, so a later response carrying the stored `requestId` and the
correct token transitions the very same session once more, to
`VERIFIED`. -/
theorem C2_counterexample_late_response_after_timeout :
    let t1 := (initiateVerification initialState "P" 7 "tok" "r1" "enc" 100).1
    let t2 := fireTimer t1 0
    let t3 := handleRawTokenReceived t2
      { requestId := "r1", decryptedToken := "tok", timestamp := 500 } "P"
    getVerificationState t1 "P" = PeerVerificationState.VERIFYING ∧
    getVerificationState t2 "P" = PeerVerificationState.UNVERIFIED ∧
    getVerificationState t3 "P" = PeerVerificationState.VERIFIED := by
  decide

/-- Claim C2 amended: a timer fire transitions any existing session for
the peer to `UNVERIFIED`, regardless of whether it is still `VERIFYING`;
an armed timer fires at most once; but the session entry survives the
timeout, so a later response whose `requestId` matches the stored
`requestId` and whose token equals the stored `localToken` transitions
the session again, to `VERIFIED`. -/
theorem C2_timeout_single_fire_but_not_final (s : VerifState) (peerId : String)
    (m : PeerVerificationMetadata) (hm : s.verificationMap peerId = some m) :
    getVerificationState (handleVerificationTimeout s peerId) peerId
      = PeerVerificationState.UNVERIFIED ∧
    (∀ tid, fireTimer (fireTimer s tid) tid = fireTimer s tid) ∧
    (∀ data : VerificationTokenRaw, data.requestId = m.requestId →
      data.decryptedToken = m.localToken →
      getVerificationState
          (handleRawTokenReceived (handleVerificationTimeout s peerId) data peerId) peerId
        = PeerVerificationState.VERIFIED) := by
  refine ⟨getVerificationState_set_self s peerId _ m hm, fun tid => fireTimer_oneShot s tid, ?_⟩
  intro data hreq htok
  have hm1 : (handleVerificationTimeout s peerId).verificationMap peerId
      = some { m with state := PeerVerificationState.UNVERIFIED } :=
    setVerificationState_map_self s peerId _ m hm
  unfold handleRawTokenReceived
  rw [hm1]
  simp only [hreq]
  rw [if_neg (by simp)]
  cases hmt : m.timeoutTimer with
  | none =>
      simp only [hmt]
      rw [if_pos (by simp [htok])]
      apply getVerificationState_set_self
      exact mapSet_same _ _ _
  | some tid =>
      simp only [hmt]
      rw [if_pos (by simp [htok])]
      apply getVerificationState_set_self
      exact mapSet_same _ _ _

/-- Witness for the amended C2 theorem at a concrete session. -/
theorem C2_timeout_single_fire_but_not_final_witness :
    getVerificationState
        (handleRawTokenReceived
          (handleVerificationTimeout
            (initiateVerification initialState "P" 7 "tok" "r1" "enc" 100).1 "P")
          { requestId := "r1", decryptedToken := "tok", timestamp := 500 } "P") "P"
      = PeerVerificationState.VERIFIED :=
  (C2_timeout_single_fire_but_not_final
      (initiateVerification initialState "P" 7 "tok" "r1" "enc" 100).1 "P"
      { peerId := "P", state := PeerVerificationState.VERIFYING, localToken := "tok",
        remoteToken := none, encryptedLocalToken := some "enc", requestId := "r1",
        timestamp := 100, timeoutTimer := some 0 }
      (by decide)).2.2
    { requestId := "r1", decryptedToken := "tok", timestamp := 500 } rfl rfl

/-- Claim C3 counterexample: the claim says the receiver's own session
for the asking peer is left unchanged when answering an inbound
verification request.  In the embedded code the decryption-failure
branch calls `setVerificationState(peerId, UNVERIFIED)`: a receiver
holding a `VERIFIED` session for "P" has it flipped to `UNVERIFIED` by a
request it fails to decrypt (no response is sent). -/
theorem C3_counterexample_decrypt_failure_mutates_session :
    let s1 := (initiateVerification initialState "P" 7 "tok" "r1" "enc" 100).1
    let s2 := handleRawTokenReceived s1
      { requestId := "r1", decryptedToken := "tok", timestamp := 300 } "P"
    getVerificationState s2 "P" = PeerVerificationState.VERIFIED ∧
    (handleEncryptedTokenReceived s2
        { requestId := "req9", encryptedToken := "cipher", timestamp := 400 } "P" none 400).2
      = none ∧
    getVerificationState
        (handleEncryptedTokenReceived s2
          { requestId := "req9", encryptedToken := "cipher", timestamp := 400 } "P" none 400).1
        "P"
      = PeerVerificationState.UNVERIFIED := by
  decide

/-- Claim C3 amended: on successful decryption the responder only sends
back the response with the same `requestId` and the decrypted token, and
the manager state is untouched; on decryption failure the error is
swallowed and no response is sent, but the receiver's session for the
peer, if one exists, is set to `UNVERIFIED` (no entry is created when
none exists, and other peers' sessions are unchanged). -/
theorem C3_responder_state_effects (s : VerifState) (data : VerificationTokenEncrypted)
    (peerId : String) (now : Nat) :
    (∀ tok, handleEncryptedTokenReceived s data peerId (some tok) now
        = (s, some { requestId := data.requestId, decryptedToken := tok, timestamp := now })) ∧
    (handleEncryptedTokenReceived s data peerId none now).2 = none ∧
    (s.verificationMap peerId = none →
        (handleEncryptedTokenReceived s data peerId none now).1 = s) ∧
    (∀ m, s.verificationMap peerId = some m →
        (handleEncryptedTokenReceived s data peerId none now).1.verificationMap peerId
            = some { m with state := PeerVerificationState.UNVERIFIED } ∧
        ∀ q, q ≠ peerId →
          (handleEncryptedTokenReceived s data peerId none now).1.verificationMap q
            = s.verificationMap q) := by
  refine ⟨fun tok => rfl, rfl, ?_, ?_⟩
  · intro h
    show setVerificationState s peerId PeerVerificationState.UNVERIFIED = s
    unfold setVerificationState
    rw [h]
  · intro m hm
    exact ⟨setVerificationState_map_self s peerId _ m hm,
           fun q hq => setVerificationState_map_other s peerId q _ hq⟩

/-- Witness for the C3 amended theorem at a concrete state. -/
theorem C3_responder_state_effects_witness :
    (handleEncryptedTokenReceived
        (initiateVerification initialState "P" 7 "tok" "r1" "enc" 100).1
        { requestId := "x", encryptedToken := "c", timestamp := 400 } "P" none 400).1.verificationMap
      "P"
      = some { peerId := "P", state := PeerVerificationState.UNVERIFIED, localToken := "tok",
               remoteToken := none, encryptedLocalToken := some "enc", requestId := "r1",
               timestamp := 100, timeoutTimer := some 0 } :=
  ((C3_responder_state_effects
      (initiateVerification initialState "P" 7 "tok" "r1" "enc" 100).1
      { requestId := "x", encryptedToken := "c", timestamp := 400 } "P" 400).2.2.2
    { peerId := "P", state := PeerVerificationState.VERIFYING, localToken := "tok",
      remoteToken := none, encryptedLocalToken := some "enc", requestId := "r1",
      timestamp := 100, timeoutTimer := some 0 }
    (by decide)).1

end ChatP2P.PeerVerification

namespace ChatP2P.PeerVerification

/-- Claim C4: dispatch of an inbound verification response.  With no
session the message is ignored with no state change; with a stored
`requestId` different from the response's, the session transitions to
`UNVERIFIED` (whatever the token value); otherwise the session's timer
is cancelled and the state becomes `VERIFIED` exactly when the response
token equals the stored `localToken`, else `UNVERIFIED`. -/
theorem C4_response_dispatch (s : VerifState) (data : VerificationTokenRaw) (peerId : String) :
    (s.verificationMap peerId = none → handleRawTokenReceived s data peerId = s) ∧
    (∀ m, s.verificationMap peerId = some m → m.requestId ≠ data.requestId →
        getVerificationState (handleRawTokenReceived s data peerId) peerId
          = PeerVerificationState.UNVERIFIED) ∧
    (∀ m, s.verificationMap peerId = some m → m.requestId = data.requestId →
        (∀ tid q, m.timeoutTimer = some tid →
            (tid, q) ∉ (handleRawTokenReceived s data peerId).activeTimers) ∧
        getVerificationState (handleRawTokenReceived s data peerId) peerId
          = (if data.decryptedToken = m.localToken then PeerVerificationState.VERIFIED
             else PeerVerificationState.UNVERIFIED)) := by
  refine ⟨?_, ?_, ?_⟩
  · intro h
    unfold handleRawTokenReceived
    rw [h]
  · intro m hm hne
    unfold handleRawTokenReceived
    split
    · rename_i h
      rw [h] at hm
      cases hm
    · rename_i metadata h
      rw [h] at hm
      injection hm with hm2
      subst hm2
      rw [if_pos hne]
      exact getVerificationState_set_self s peerId _ _ h
  · intro m hm heq
    constructor
    · intro tid q htid
      unfold handleRawTokenReceived
      split
      · rename_i h
        rw [h] at hm
        cases hm
      · rename_i metadata h
        rw [h] at hm
        injection hm with hm2
        subst hm2
        rw [if_neg (by simp [heq])]
        split
        · rename_i tid2 hmt
          rw [hmt] at htid
          injection htid with htid2
          subst htid2
          by_cases htok : data.decryptedToken = metadata.localToken
          · rw [if_pos htok, setVerificationState_activeTimers]
            exact not_mem_clearTimer _ q s.activeTimers
          · rw [if_neg htok, setVerificationState_activeTimers]
            exact not_mem_clearTimer _ q s.activeTimers
        · rename_i hmt
          rw [hmt] at htid
          cases htid
    · unfold handleRawTokenReceived
      split
      · rename_i h
        rw [h] at hm
        cases hm
      · rename_i metadata h
        rw [h] at hm
        injection hm with hm2
        subst hm2
        rw [if_neg (by simp [heq])]
        split
        · rename_i tid hmt
          by_cases htok : data.decryptedToken = metadata.localToken
          · rw [if_pos htok, if_pos htok]
            exact getVerificationState_set_self _ peerId _ _ (mapSet_same _ _ _)
          · rw [if_neg htok, if_neg htok]
            exact getVerificationState_set_self _ peerId _ _ h
        · rename_i hmt
          by_cases htok : data.decryptedToken = metadata.localToken
          · rw [if_pos htok, if_pos htok]
            exact getVerificationState_set_self _ peerId _ _ (mapSet_same _ _ _)
          · rw [if_neg htok, if_neg htok]
            exact getVerificationState_set_self s peerId _ _ h

/-- Witness for C4 at a concrete session and a wrong-token response. -/
theorem C4_response_dispatch_witness :
    getVerificationState
        (handleRawTokenReceived (initiateVerification initialState "P" 7 "tok" "r1" "enc" 100).1
          { requestId := "r1", decryptedToken := "bad", timestamp := 300 } "P") "P"
      = (if ("bad" : String) = "tok" then PeerVerificationState.VERIFIED
         else PeerVerificationState.UNVERIFIED) :=
  ((C4_response_dispatch (initiateVerification initialState "P" 7 "tok" "r1" "enc" 100).1
      { requestId := "r1", decryptedToken := "bad", timestamp := 300 } "P").2.2
    { peerId := "P", state := PeerVerificationState.VERIFYING, localToken := "tok",
      remoteToken := none, encryptedLocalToken := some "enc", requestId := "r1",
      timestamp := 100, timeoutTimer := some 0 }
    (by decide) rfl).2

/-- Claim C9: for a peer with no session, `getVerificationState` reads
`UNVERIFIED` and `isVerified` reads `false`; `removePeer` cancels the
session's pending timer and deletes both the session and the registered
public key, after which the same reads hold. -/
theorem C9_no_session_reads_unverified (s : VerifState) (peerId : String) :
    (s.verificationMap peerId = none →
        getVerificationState s peerId = PeerVerificationState.UNVERIFIED ∧
        isVerified s peerId = false) ∧
    (removePeer s peerId).verificationMap peerId = none ∧
    (removePeer s peerId).publicKeyMap peerId = none ∧
    getVerificationState (removePeer s peerId) peerId = PeerVerificationState.UNVERIFIED ∧
    isVerified (removePeer s peerId) peerId = false ∧
    (∀ m tid q, s.verificationMap peerId = some m → m.timeoutTimer = some tid →
        (tid, q) ∉ (removePeer s peerId).activeTimers) := by
  have hvm : (removePeer s peerId).verificationMap peerId = none := by
    unfold removePeer
    exact mapDel_same _ _
  have hget : getVerificationState (removePeer s peerId) peerId
      = PeerVerificationState.UNVERIFIED := by
    unfold getVerificationState
    rw [hvm]
  refine ⟨?_, hvm, ?_, hget, ?_, ?_⟩
  · intro h
    constructor
    · unfold getVerificationState
      rw [h]
    · unfold isVerified getVerificationState
      rw [h]
      rfl
  · unfold removePeer
    exact mapDel_same _ _
  · unfold isVerified
    rw [hget]
    rfl
  · intro m tid q hm htid
    simp only [removePeer, hm, htid]
    exact not_mem_clearTimer tid q s.activeTimers

/-- Witness for C9 at a concrete state that has a session with a timer. -/
theorem C9_no_session_reads_unverified_witness :
    getVerificationState
        (removePeer (initiateVerification initialState "P" 7 "tok" "r1" "enc" 100).1 "P") "P"
      = PeerVerificationState.UNVERIFIED ∧
    ((0 : Nat), "P") ∉
      (removePeer (initiateVerification initialState "P" 7 "tok" "r1" "enc" 100).1 "P").activeTimers :=
  ⟨(C9_no_session_reads_unverified
      (initiateVerification initialState "P" 7 "tok" "r1" "enc" 100).1 "P").2.2.2.1,
   (C9_no_session_reads_unverified
      (initiateVerification initialState "P" 7 "tok" "r1" "enc" 100).1 "P").2.2.2.2.2
     { peerId := "P", state := PeerVerificationState.VERIFYING, localToken := "tok",
       remoteToken := none, encryptedLocalToken := some "enc", requestId := "r1",
       timestamp := 100, timeoutTimer := some 0 }
     0 "P" (by decide) rfl⟩

/-- Frame lemma: processing an inbound response never touches other
peers' session entries. -/
theorem handleRawTokenReceived_map_other (s : VerifState) (data : VerificationTokenRaw)
    (peerId q : String) (hq : q ≠ peerId) :
    (handleRawTokenReceived s data peerId).verificationMap q = s.verificationMap q := by
  unfold handleRawTokenReceived
  split
  · rfl
  · rename_i metadata h
    by_cases hr : metadata.requestId ≠ data.requestId
    · rw [if_pos hr]
      exact setVerificationState_map_other s peerId q _ hq
    · rw [if_neg hr]
      split
      · rename_i tid hmt
        by_cases htok : data.decryptedToken = metadata.localToken
        · rw [if_pos htok]
          rw [setVerificationState_map_other _ peerId q _ hq]
          exact mapSet_other _ _ _ _ hq
        · rw [if_neg htok]
          exact setVerificationState_map_other _ peerId q _ hq
      · rename_i hmt
        by_cases htok : data.decryptedToken = metadata.localToken
        · rw [if_pos htok]
          rw [setVerificationState_map_other _ peerId q _ hq]
          exact mapSet_other _ _ _ _ hq
        · rw [if_neg htok]
          exact setVerificationState_map_other s peerId q _ hq

/-- Claim C10: only `initiateVerification` creates entries in the
session table.  With no session for the handled peer, an inbound
response, an inbound request (whatever the decryption outcome) and a
timer fire leave the manager's session table unchanged, and none of
these handlers ever creates a session entry for any peer that has
none. -/
theorem C10_only_initiate_creates_sessions (s : VerifState) (peerId : String)
    (data : VerificationTokenRaw) (dataE : VerificationTokenEncrypted)
    (decryptResult : Option String) (now tid : Nat) :
    (s.verificationMap peerId = none →
        handleRawTokenReceived s data peerId = s ∧
        (handleEncryptedTokenReceived s dataE peerId decryptResult now).1 = s ∧
        handleVerificationTimeout s peerId = s) ∧
    (∀ q, s.verificationMap q = none →
        (handleRawTokenReceived s data peerId).verificationMap q = none ∧
        (handleEncryptedTokenReceived s dataE peerId decryptResult now).1.verificationMap q
          = none ∧
        (fireTimer s tid).verificationMap q = none) := by
  have hset : ∀ p, s.verificationMap p = none →
      setVerificationState s p PeerVerificationState.UNVERIFIED = s := by
    intro p h
    unfold setVerificationState
    rw [h]
  constructor
  · intro h
    refine ⟨?_, ?_, hset peerId h⟩
    · unfold handleRawTokenReceived
      rw [h]
    · cases decryptResult with
      | some tok => rfl
      | none => exact hset peerId h
  · intro q hq
    refine ⟨?_, ?_, ?_⟩
    · by_cases hqp : q = peerId
      · subst hqp
        rw [(by unfold handleRawTokenReceived; rw [hq] :
              handleRawTokenReceived s data q = s)]
        exact hq
      · rw [handleRawTokenReceived_map_other s data peerId q hqp]
        exact hq
    · cases decryptResult with
      | some tok => exact hq
      | none => exact setVerificationState_map_none s peerId q _ hq
    · cases hf : findTimer tid s.activeTimers with
      | none =>
          rw [fireTimer_not_armed s tid hf]
          exact hq
      | some p =>
          rw [fireTimer_armed s tid p hf]
          unfold handleVerificationTimeout
          exact setVerificationState_map_none _ p q _ hq

/-- Witness for C10: a state holding a session for "P" and an armed
timer; no handler creates a session for the absent peer "Q". -/
theorem C10_only_initiate_creates_sessions_witness :
    (handleRawTokenReceived (initiateVerification initialState "P" 7 "tok" "r1" "enc" 100).1
        { requestId := "r1", decryptedToken := "tok", timestamp := 300 } "P").verificationMap "Q"
      = none ∧
    (fireTimer (initiateVerification initialState "P" 7 "tok" "r1" "enc" 100).1 0).verificationMap
        "Q"
      = none :=
  ⟨((C10_only_initiate_creates_sessions
      (initiateVerification initialState "P" 7 "tok" "r1" "enc" 100).1 "P"
      { requestId := "r1", decryptedToken := "tok", timestamp := 300 }
      { requestId := "x", encryptedToken := "c", timestamp := 400 } none 400 0).2
      "Q" (by decide)).1,
   ((C10_only_initiate_creates_sessions
      (initiateVerification initialState "P" 7 "tok" "r1" "enc" 100).1 "P"
      { requestId := "r1", decryptedToken := "tok", timestamp := 300 }
      { requestId := "x", encryptedToken := "c", timestamp := 400 } none 400 0).2
      "Q" (by decide)).2.2⟩

end ChatP2P.PeerVerification

namespace ChatP2P.Connection

/-- Claim C5: the claim says a statistics-fetch failure for one peer
must not prevent classification of the remaining peers.  The embedded
code refutes this: the per-peer classifications are combined with
`Promise.all`, which rejects as soon as any one `getStats()` rejects.
On the failing input below, peer "B"'s statistics fetch succeeds and
classifies as `DIRECT` when "B" is alone, but as soon as peer "A"'s
fetch fails the whole `getPeerConnectionTypes` call rejects and no map
containing "B" is returned. -/
theorem C5_single_failure_aborts_classification :
    let statsB : StatsReport :=
      [{ id := "pair1", type := "candidate-pair", state := "succeeded",
         localCandidateId := some "cand1", candidateType := none },
       { id := "cand1", type := "local-candidate", state := "",
         localCandidateId := none, candidateType := some "host" }]
    classifyPeer statsB = PeerConnectionType.DIRECT ∧
    getPeerConnectionTypes [("B", Except.ok statsB)]
      = Except.ok [("B", PeerConnectionType.DIRECT)] ∧
    getPeerConnectionTypes [("A", Except.error ()), ("B", Except.ok statsB)]
      = Except.error () ∧
    getPeerConnectionTypes [("B", Except.ok statsB), ("A", Except.error ())]
      = Except.error () := by
  exact ⟨rfl, rfl, rfl, rfl⟩

end ChatP2P.Connection

namespace ChatP2P.Actions

theorem makeAction_cached (s : ActionManagerState) (action ns : String) (t : Nat)
    (hc : s.actions (actionName action ns) = some t) :
    makeAction s action ns = (t, s) := by
  simp only [makeAction]
  rw [hc]

theorem makeAction_fresh (s : ActionManagerState) (action ns : String)
    (hc : s.actions (actionName action ns) = none) :
    makeAction s action ns =
      (s.nextTupleId,
       { actions := mapSet s.actions (actionName action ns) s.nextTupleId
         nextTupleId := s.nextTupleId + 1 }) := by
  simp only [makeAction]
  rw [hc]

/-- Claim C6: `makeAction` is memoized per (namespace, action) key: a
second call with identical arguments returns the identical tuple and
leaves the manager unchanged; after the tuple's cleanup function runs,
the next call with the same arguments returns a fresh tuple distinct
from the original one. -/
theorem C6_makeAction_memoized (s : ActionManagerState) (action ns : String) (hwf : WF s)
    (t1 : Nat) (s1 : ActionManagerState) (h1 : makeAction s action ns = (t1, s1)) :
    makeAction s1 action ns = (t1, s1) ∧
    (makeAction (tupleCleanup s1 action ns) action ns).1 ≠ t1 := by
  have hmain : WF s1 ∧ s1.actions (actionName action ns) = some t1 := by
    cases hc : s.actions (actionName action ns) with
    | some t =>
        rw [makeAction_cached s action ns t hc] at h1
        injection h1 with e1 e2
        subst e1
        subst e2
        exact ⟨hwf, hc⟩
    | none =>
        rw [makeAction_fresh s action ns hc] at h1
        injection h1 with e1 e2
        subst e1
        subst e2
        constructor
        · have hw := wf_makeAction s action ns hwf
          rw [makeAction_fresh s action ns hc] at hw
          exact hw
        · exact mapSet_same _ _ _
  obtain ⟨hwf1, hcache⟩ := hmain
  constructor
  · exact makeAction_cached s1 action ns t1 hcache
  · have hclean : (tupleCleanup s1 action ns).actions (actionName action ns) = none := by
      unfold tupleCleanup
      exact mapDel_same _ _
    rw [makeAction_fresh _ action ns hclean]
    intro hEq
    have hlt : t1 < s1.nextTupleId := hwf1 _ _ hcache
    rw [← hEq] at hlt
    exact Nat.lt_irrefl s1.nextTupleId hlt

/-- Witness for C6 starting from a fresh manager. -/
theorem C6_makeAction_memoized_witness :
    makeAction
        { actions := mapSet (fun _ => none) (actionName "MESSAGE" "g") 0, nextTupleId := 1 }
        "MESSAGE" "g"
      = (0, { actions := mapSet (fun _ => none) (actionName "MESSAGE" "g") 0,
              nextTupleId := 1 }) ∧
    (makeAction
        (tupleCleanup
          { actions := mapSet (fun _ => none) (actionName "MESSAGE" "g") 0, nextTupleId := 1 }
          "MESSAGE" "g")
        "MESSAGE" "g").1 ≠ 0 :=
  C6_makeAction_memoized initialState "MESSAGE" "g" wf_initialState 0
    { actions := mapSet (fun _ => none) (actionName "MESSAGE" "g") 0, nextTupleId := 1 } rfl

end ChatP2P.Actions

namespace ChatP2P.Streams

theorem processQueue_eq (l : List StreamTask) : processQueue l = l := by
  induction l with
  | nil => rfl
  | cons t rest ih => simp [processQueue, ih]

/-- Claim C7: each `addStream` enqueues exactly two tasks — the attach
task followed by the fixed quiescence delay (1000 ms) — at the end of
the queue, and the drain loop completes tasks strictly FIFO, one at a
time.  Hence for two back-to-back `addStream` calls the completion
order is: S1's attach, then S1's delay, then S2's attach, then S2's
delay — S1's attach and its delay complete strictly before S2's attach
begins. -/
theorem C7_addStream_strictly_ordered (s : StreamManagerState)
    (stream1 stream2 : Nat) (tp1 tp2 : Option (List String)) (md1 md2 : Option Nat) :
    (addStream s stream1 tp1 md1).streamQueue
      = s.streamQueue ++
        [StreamTask.attach stream1 tp1 md1, StreamTask.delay STREAM_QUEUE_ADD_DELAY] ∧
    processQueue (addStream (addStream s stream1 tp1 md1) stream2 tp2 md2).streamQueue
      = s.streamQueue ++
        [StreamTask.attach stream1 tp1 md1, StreamTask.delay STREAM_QUEUE_ADD_DELAY,
         StreamTask.attach stream2 tp2 md2, StreamTask.delay STREAM_QUEUE_ADD_DELAY] := by
  constructor
  · rfl
  · rw [processQueue_eq]
    simp [addStream]

end ChatP2P.Streams

namespace ChatP2P.Events

/-- Claim C8: triggering a peer-lifecycle event (join, leave or stream)
invokes every handler registered for that event type across all hook
categories — a handler is invoked exactly when it is registered under
some category, whichever one it is; and flushing a hook category only
removes that category's handlers from future deliveries: after
`flushHookType c`, a trigger invokes exactly the handlers registered
under the remaining categories. -/
theorem C8_trigger_crosses_categories_flush_scopes_removal (s : EventManagerState)
    (flushed : PeerHookType) (h : Nat) :
    (h ∈ triggerPeerJoin s ↔ ∃ ht, h ∈ s.peerJoinHandlers ht) ∧
    (h ∈ triggerPeerLeave s ↔ ∃ ht, h ∈ s.peerLeaveHandlers ht) ∧
    (h ∈ triggerPeerStream s ↔ ∃ ht, h ∈ s.peerStreamHandlers ht) ∧
    (h ∈ triggerPeerJoin (flushHookType s flushed) ↔
        ∃ ht, ht ≠ flushed ∧ h ∈ s.peerJoinHandlers ht) := by
  have hflush : ∀ ht, (flushHookType s flushed).peerJoinHandlers ht
      = if ht = flushed then [] else s.peerJoinHandlers ht := fun ht => rfl
  refine ⟨mem_invokedHandlers _ h, mem_invokedHandlers _ h, mem_invokedHandlers _ h, ?_⟩
  unfold triggerPeerJoin
  rw [mem_invokedHandlers]
  constructor
  · rintro ⟨ht, hht⟩
    by_cases hf : ht = flushed
    · rw [hflush ht, if_pos hf] at hht
      cases hht
    · rw [hflush ht, if_neg hf] at hht
      exact ⟨ht, hf, hht⟩
  · rintro ⟨ht, hne, hht⟩
    refine ⟨ht, ?_⟩
    rw [hflush ht, if_neg hne]
    exact hht

end ChatP2P.Events
